import Mathlib

/-!
Verification of the `autonomous-robot` repository: a shallow embedding of the
SE(2) pose algebra in `src/lib/math/pose2d.py` and of the cooperative action
scheduler in `src/lib/actions/action_scheduler.py`, together with proofs and
refutations of the frozen claims about them.

Python floats are modelled as real numbers; the 2D vector and rotation helper
classes (`translation2d.py`, `rotation2d.py`, `twist2d.py`) are imported by the
source but are not part of the source tree, so they are modelled from the
specification text, as marked on each definition.
-/

/-- Modelled from the spec: `Translation2d` (the file `src/lib/math/translation2d.py`
is imported by `pose2d.py` but missing from the tree). Spec section 4.2: a 2D vector
with real coordinates. -/
structure Translation2d where
  x : ℝ
  y : ℝ


/-- Modelled from the spec: `Rotation2d` (the file `src/lib/math/rotation2d.py` is
missing from the tree). Spec section 3: a heading angle held in its normalized
representation as the pair (cos θ, sin θ). -/
structure Rotation2d where
  cos : ℝ
  sin : ℝ


/-- Modelled from the spec: the angle constructor `Rotation2d(theta)` used by
`pose2d.py`, storing (cos θ, sin θ). -/
noncomputable def Rotation2d.ofAngle (θ : ℝ) : Rotation2d :=
  ⟨Real.cos θ, Real.sin θ⟩

/-- Modelled from the spec: `Twist2d` (the file `src/lib/math/twist2d.py` is missing
from the tree). Spec section 3: a local-frame displacement (dx, dy, dtheta). -/
structure Twist2d where
  dx : ℝ
  dy : ℝ
  dtheta : ℝ


/-- Modelled from the spec, section 4.2: `Translation2d.plus` is vector addition. -/
noncomputable def Translation2d.plus (t o : Translation2d) : Translation2d :=
  ⟨t.x + o.x, t.y + o.y⟩

/-- Modelled from the spec, section 4.2: `Translation2d.minus` is vector subtraction. -/
noncomputable def Translation2d.minus (t o : Translation2d) : Translation2d :=
  ⟨t.x - o.x, t.y - o.y⟩

/-- Modelled from the spec, section 4.2: `Translation2d.unary_minus` negates both
coordinates. -/
noncomputable def Translation2d.unary_minus (t : Translation2d) : Translation2d :=
  ⟨-t.x, -t.y⟩

/-- Modelled from the spec, section 4.2: `Translation2d.rotate_by` applies the 2×2
rotation matrix of the given rotation. -/
noncomputable def Translation2d.rotate_by (t : Translation2d) (r : Rotation2d) : Translation2d :=
  ⟨t.x * r.cos - t.y * r.sin, t.x * r.sin + t.y * r.cos⟩

/-- Modelled from the spec, section 4.1: `Rotation2d.plus` composes two rotations by
complex multiplication. -/
noncomputable def Rotation2d.plus (r o : Rotation2d) : Rotation2d :=
  ⟨r.cos * o.cos - r.sin * o.sin, r.sin * o.cos + r.cos * o.sin⟩

/-- Modelled from the spec, section 4.1: `Rotation2d.unary_minus` negates the angle,
so it keeps the cosine and negates the sine. -/
noncomputable def Rotation2d.unary_minus (r : Rotation2d) : Rotation2d :=
  ⟨r.cos, -r.sin⟩

/-- Modelled from the spec, section 4.1: `Rotation2d.minus other` is
`this.plus(other.unary_minus())`. -/
noncomputable def Rotation2d.minus (r o : Rotation2d) : Rotation2d :=
  r.plus o.unary_minus

/-- The real-number semantics of `math.atan2(y, x)` as used by `Pose2d.exp`. -/
noncomputable def atan2 (y x : ℝ) : ℝ :=
  if 0 < x then Real.arctan (y / x)
  else if x < 0 then
    (if 0 ≤ y then Real.arctan (y / x) + Real.pi else Real.arctan (y / x) - Real.pi)
  else
    (if 0 < y then Real.pi / 2 else if y < 0 then -(Real.pi / 2) else 0)

/-- `Pose2d` from `src/lib/math/pose2d.py`: a dataclass holding a translation and a
rotation. -/
structure Pose2d where
  translation : Translation2d
  rotation : Rotation2d


/-- The `Pose2d.__init__(x, y, rotation)` constructor of the source
(`src/lib/math/pose2d.py`, lines 16-20), with the rotation given explicitly. -/
noncomputable def Pose2d.construct (x y : ℝ) (r : Rotation2d) : Pose2d :=
  ⟨⟨x, y⟩, r⟩

/-- `Pose2d()` with all defaults: x = 0, y = 0, rotation = Rotation2d(0.0). -/
noncomputable def Pose2d.default : Pose2d :=
  Pose2d.construct 0 0 (Rotation2d.ofAngle 0)

/-- `Transform2d` from `src/lib/math/pose2d.py`: fields `m_translation` and
`m_rotation` (these are its only attributes). -/
structure Transform2d where
  m_translation : Translation2d
  m_rotation : Rotation2d


/-- `Pose2d.plus` (`src/lib/math/pose2d.py`, lines 22-25): pose composition with a
transform applied in the frame of the pose. -/
noncomputable def Pose2d.plus (p : Pose2d) (other : Transform2d) : Pose2d :=
  let new_translation := p.translation.plus (other.m_translation.rotate_by p.rotation)
  let new_rotation := other.m_rotation.plus p.rotation
  Pose2d.construct new_translation.x new_translation.y new_rotation

/-- `Pose2d.relative_to` (`src/lib/math/pose2d.py`, lines 31-33). The source builds
`transform = Transform2d(other.translation, other.rotation)` and then reads
`transform.translation` and `transform.rotation` — attributes `Transform2d` never
defines (its fields are named `m_translation` and `m_rotation`), so every call
raises `AttributeError`. Fallible code is modelled in `Option`; the attribute
lookup failure makes the result `none`. -/
noncomputable def Pose2d.relative_to (_self other : Pose2d) : Option Pose2d :=
  let _transform : Transform2d := ⟨other.translation, other.rotation⟩
  none

/-- `Pose2d.minus` (`src/lib/math/pose2d.py`, lines 27-29):
`relative_pose = self.relative_to(other)` followed by repackaging into a
`Transform2d`; the `AttributeError` from `relative_to` propagates. -/
noncomputable def Pose2d.minus (p other : Pose2d) : Option Transform2d :=
  (p.relative_to other).map fun relative_pose =>
    ⟨relative_pose.translation, relative_pose.rotation⟩

/-- `Pose2d.transform_by` does not exist in the source: the class `Pose2d` in
`src/lib/math/pose2d.py` defines no method or attribute of that name, so the call
`initial_pose.transform_by(self)` inside `Transform2d.plus` raises
`AttributeError`. Modelled as the always-failing `Option`. -/
noncomputable def Pose2d.transform_by (_p : Pose2d) (_t : Transform2d) : Option Pose2d :=
  none

/-- `Transform2d.from_poses` (`src/lib/math/pose2d.py`, lines 89-101): translation
difference, rotation difference, then de-rotation of the translation by the inverse
of the initial rotation. -/
noncomputable def Transform2d.from_poses (initial last : Pose2d) : Transform2d :=
  let translation := last.translation.minus initial.translation
  let rotation := last.rotation.minus initial.rotation
  let rotated_translation := translation.rotate_by initial.rotation.unary_minus
  ⟨rotated_translation, rotation⟩

/-- `Transform2d.plus` (`src/lib/math/pose2d.py`, lines 134-143): it sets
`initial_pose = Pose2d()` and computes
`final_pose = initial_pose.transform_by(self).transform_by(other)`, then derives the
net transform via `from_poses`. Since `Pose2d` has no `transform_by`, the first call
raises `AttributeError`, modelled by `Option` failure. -/
noncomputable def Transform2d.plus (t other : Transform2d) : Option Transform2d :=
  let initial_pose := Pose2d.default
  (initial_pose.transform_by t).bind fun p1 =>
    (p1.transform_by other).map fun final_pose =>
      Transform2d.from_poses initial_pose final_pose

/-- `Transform2d.inverse` (`src/lib/math/pose2d.py`, lines 161-166): rotate the
negated translation by the negated rotation, and negate the rotation. -/
noncomputable def Transform2d.inverse (t : Transform2d) : Transform2d :=
  ⟨(t.m_translation.unary_minus).rotate_by t.m_rotation.unary_minus,
   t.m_rotation.unary_minus⟩

/-- `Pose2d.exp` (`src/lib/math/pose2d.py`, lines 50-70): closed-form SE(2)
exponential map with a Taylor branch for near-zero dtheta (threshold 1E-9). -/
noncomputable def Pose2d.exp (p : Pose2d) (twist : Twist2d) : Pose2d :=
  let dx := twist.dx
  let dy := twist.dy
  let dtheta := twist.dtheta
  let sin_theta := Real.sin dtheta
  let cos_theta := Real.cos dtheta
  let sc : ℝ × ℝ :=
    if |dtheta| < 1 / 10 ^ 9 then
      (1 - 1 / 6 * dtheta * dtheta, 1 / 2 * dtheta)
    else
      (sin_theta / dtheta, (1 - cos_theta) / dtheta)
  let s := sc.1
  let c := sc.2
  let transform : Transform2d :=
    ⟨⟨dx * s - dy * c, dx * c + dy * s⟩,
     Rotation2d.ofAngle (atan2 sin_theta cos_theta)⟩
  p.plus transform

/-- The scale factor `s` of the exponential map exactly as the spec words it
(section 4.4): `1 − θ²/6` below the threshold, `sin θ / θ` otherwise. Stated
separately from `Pose2d.exp` so the code can be compared against it. -/
noncomputable def specExpScaleS (θ : ℝ) : ℝ :=
  if |θ| < 1 / 10 ^ 9 then 1 - θ ^ 2 / 6 else Real.sin θ / θ

/-- The scale factor `c` of the exponential map exactly as the spec words it
(section 4.4): `θ/2` below the threshold, `(1 − cos θ)/θ` otherwise. -/
noncomputable def specExpScaleC (θ : ℝ) : ℝ :=
  if |θ| < 1 / 10 ^ 9 then θ / 2 else (1 - Real.cos θ) / θ

/-- Componentwise closeness of two transforms within a tolerance, the sense in
which the spec states its 1e-9 laws. -/
def Transform2d.approxEq (a b : Transform2d) (tol : ℝ) : Prop :=
  |a.m_translation.x - b.m_translation.x| ≤ tol ∧
  |a.m_translation.y - b.m_translation.y| ≤ tol ∧
  |a.m_rotation.cos - b.m_rotation.cos| ≤ tol ∧
  |a.m_rotation.sin - b.m_rotation.sin| ≤ tol

/-- C8: `Pose2d().exp(Twist2d(0, 0, 0))` equals `Pose2d()`: the identity twist is a
no-op on the default pose. -/
theorem pose2d_exp_zero_twist :
    Pose2d.default.exp ⟨0, 0, 0⟩ = Pose2d.default := by
  have h0 : |(0 : ℝ)| < 1 / 10 ^ 9 := by
    rw [abs_zero]; norm_num
  simp [Pose2d.exp, Pose2d.default, Pose2d.construct, Pose2d.plus, Translation2d.plus,
    Translation2d.rotate_by, Rotation2d.plus, Rotation2d.ofAngle, atan2, h0,
    Real.arctan_zero]

/-- C4: for every pose `p` and twist, `Pose2d.exp` follows the SE(2) exponential map
as the spec words it: with θ = dtheta, s and c are the Taylor pair `(1 − θ²/6, θ/2)`
when |θ| < 1e-9 and `(sin θ/θ, (1 − cos θ)/θ)` otherwise; the local transform has
translation `(dx·s − dy·c, dx·c + dy·s)` and rotation `atan2(sin θ, cos θ)`, and is
composed onto `p` via `plus`. -/
theorem pose2d_exp_matches_spec_formula (p : Pose2d) (tw : Twist2d) :
    p.exp tw =
      p.plus
        ⟨⟨tw.dx * specExpScaleS tw.dtheta - tw.dy * specExpScaleC tw.dtheta,
          tw.dx * specExpScaleC tw.dtheta + tw.dy * specExpScaleS tw.dtheta⟩,
         Rotation2d.ofAngle (atan2 (Real.sin tw.dtheta) (Real.cos tw.dtheta))⟩ := by
  simp only [Pose2d.exp, specExpScaleS, specExpScaleC]
  split_ifs with h
  · congr 2
    ring_nf
  · rfl

/-- C1 (code evaluated at the failing input): `a.minus(b)` for `a = Pose2d(1, 0)` and
`b = Pose2d()` produces no transform at all — `Pose2d.relative_to` reads the
attributes `transform.translation` and `transform.rotation`, which `Transform2d`
does not define, so the call raises `AttributeError` instead of returning the
transform `T` with `b.plus(T) == a`. -/
theorem pose2d_minus_attribute_error :
    (Pose2d.construct 1 0 (Rotation2d.ofAngle 0)).minus Pose2d.default = none := rfl

/-- C3 (code evaluated at the failing input): for `t = Transform2d(Translation2d(1, 0),
Rotation2d(0))`, the call `t.plus(t.inverse())` produces no transform —
`Transform2d.plus` invokes `Pose2d().transform_by(...)`, a method `Pose2d` does not
define, so it raises `AttributeError` instead of returning the identity transform. -/
theorem transform2d_plus_inverse_attribute_error :
    Transform2d.plus ⟨⟨1, 0⟩, Rotation2d.ofAngle 0⟩
      (Transform2d.inverse ⟨⟨1, 0⟩, Rotation2d.ofAngle 0⟩) = none := rfl

/-- C5: for every pose `p` (with its rotation on the unit circle, the invariant every
`Rotation2d` built from an angle satisfies) and every transform `t`,
`Transform2d.from_poses p (p.plus t)` equals `t` within 1e-9 in every component. -/
theorem transform2d_from_poses_round_trip (p : Pose2d) (t : Transform2d)
    (hunit : p.rotation.cos ^ 2 + p.rotation.sin ^ 2 = 1) :
    Transform2d.approxEq (Transform2d.from_poses p (p.plus t)) t (1 / 10 ^ 9) := by
  have hx : Transform2d.from_poses p (p.plus t) = t := by
    obtain ⟨⟨tx, ty⟩, ⟨tc, ts⟩⟩ := t
    simp only [Transform2d.from_poses, Pose2d.plus, Pose2d.construct,
      Translation2d.minus, Translation2d.plus, Translation2d.rotate_by,
      Rotation2d.minus, Rotation2d.plus, Rotation2d.unary_minus,
      Transform2d.mk.injEq, Translation2d.mk.injEq, Rotation2d.mk.injEq]
    refine ⟨⟨?_, ?_⟩, ?_, ?_⟩
    · linear_combination tx * hunit
    · linear_combination ty * hunit
    · linear_combination tc * hunit
    · linear_combination ts * hunit
  rw [hx]
  refine ⟨?_, ?_, ?_, ?_⟩ <;> · rw [sub_self, abs_zero]; positivity

/-- Witness for C5 at a concrete pose and transform. -/
theorem transform2d_from_poses_round_trip_witness :
    ((Pose2d.mk ⟨0, 0⟩ ⟨1, 0⟩).rotation.cos ^ 2 + (Pose2d.mk ⟨0, 0⟩ ⟨1, 0⟩).rotation.sin ^ 2 = 1) ∧
    Transform2d.approxEq
      (Transform2d.from_poses (Pose2d.mk ⟨0, 0⟩ ⟨1, 0⟩)
        ((Pose2d.mk ⟨0, 0⟩ ⟨1, 0⟩).plus ⟨⟨1, 2⟩, ⟨3, 4⟩⟩))
      ⟨⟨1, 2⟩, ⟨3, 4⟩⟩ (1 / 10 ^ 9) :=
  ⟨by norm_num,
   transform2d_from_poses_round_trip (Pose2d.mk ⟨0, 0⟩ ⟨1, 0⟩) ⟨⟨1, 2⟩, ⟨3, 4⟩⟩ (by norm_num)⟩

/-- C7: `Pose2d().exp(Twist2d(1, 0, π/2))` lands on the exact quarter-circle arc
endpoint: translation `(2/π, 2/π)` and rotation `π/2`, and in particular not on the
Euler endpoint whose translation is `(1, 0)`. -/
theorem pose2d_exp_quarter_circle :
    (Pose2d.default.exp ⟨1, 0, Real.pi / 2⟩).translation = ⟨2 / Real.pi, 2 / Real.pi⟩ ∧
    (Pose2d.default.exp ⟨1, 0, Real.pi / 2⟩).rotation = Rotation2d.ofAngle (Real.pi / 2) ∧
    (Pose2d.default.exp ⟨1, 0, Real.pi / 2⟩).translation ≠ ⟨(1 : ℝ), 0⟩ := by
  have hπ3 : (3 : ℝ) < Real.pi := Real.pi_gt_three
  have hπ0 : (0 : ℝ) < Real.pi := Real.pi_pos
  have hnot : ¬ |Real.pi / 2| < 1 / 10 ^ 9 := by
    rw [abs_of_pos (by linarith)]
    push_neg
    nlinarith
  have hatan : atan2 1 0 = Real.pi / 2 := by
    norm_num [atan2]
  have hhalf : (1 : ℝ) / (Real.pi / 2) = 2 / Real.pi := by
    rw [div_div_eq_mul_div, one_mul]
  have hval : Pose2d.default.exp ⟨1, 0, Real.pi / 2⟩ =
      Pose2d.construct (2 / Real.pi) (2 / Real.pi)
        (Rotation2d.ofAngle (Real.pi / 2)) := by
    simp only [Pose2d.exp, hnot, if_false, Real.sin_pi_div_two, Real.cos_pi_div_two,
      sub_zero, hhalf, hatan, Pose2d.default, Pose2d.construct, Pose2d.plus,
      Translation2d.plus, Translation2d.rotate_by, Rotation2d.plus,
      Rotation2d.ofAngle, Real.cos_zero, Real.sin_zero, one_mul, zero_mul, mul_one,
      mul_zero, zero_add, add_zero]
  refine ⟨by rw [hval]; rfl, by rw [hval]; rfl, ?_⟩
  rw [hval]
  intro hcontra
  have h2 : (0 : ℝ) < 2 / Real.pi := by positivity
  have hy := congrArg Translation2d.y hcontra
  simp only [Pose2d.construct] at hy
  linarith

/-- Action identity: the scheduler set is keyed by object identity (spec section
4.6), so an action object is modelled by a numeric identity. The `Action` class
itself is not in the source tree; per the spec (section 4.5) its behaviour is
abstract, observed only through the lifecycle calls the scheduler makes. -/
abbrev ActionId := ℕ

/-- One lifecycle call the scheduler makes on an action object. -/
inductive SchedEvent
  | initCall (a : ActionId)
  | execute (a : ActionId)
  | endFalse (a : ActionId)
deriving DecidableEq

/-- `ActionScheduler.schedule_action` (`src/lib/actions/action_scheduler.py`, lines
16-18): `self.scheduled_actions.add(action)` — a no-op on membership when the
action is already in the set — followed unconditionally by `action.initialize()`.
The Python set is modelled as a duplicate-free list in insertion order (iteration
order of a Python set is unspecified and no claim depends on it). Returns the new
active set and the lifecycle calls made. -/
def schedule_action (active : List ActionId) (a : ActionId) :
    List ActionId × List SchedEvent :=
  (if a ∈ active then active else active ++ [a], [SchedEvent.initCall a])

/-- The event sequence of the `for action in self.scheduled_actions` loop inside
`ActionScheduler.run`: each active action gets `execute()`, then `is_finished()`;
when that reports true, `end(False)`. `fin` is the oracle giving each action object
its `is_finished()` answer on this tick. -/
def runEvents (active : List ActionId) (fin : ActionId → Bool) : List SchedEvent :=
  match active with
  | [] => []
  | a :: rest =>
      (SchedEvent.execute a :: if fin a then [SchedEvent.endFalse a] else []) ++
        runEvents rest fin

/-- `ActionScheduler.run` (`src/lib/actions/action_scheduler.py`, lines 20-30): one
scheduler tick. The loop gathers `actions_to_remove` while executing every active
action; the removals are applied only after the full pass. Returns the new active
set and the lifecycle calls of this tick. -/
def ActionScheduler.run (active : List ActionId) (fin : ActionId → Bool) :
    List ActionId × List SchedEvent :=
  let actions_to_remove := active.filter fin
  (active.filter (fun a => decide (a ∉ actions_to_remove)), runEvents active fin)

/-- `n` consecutive scheduler ticks from a starting active set; tick `t` uses the
`is_finished` oracle `fin t`. Returns the final active set and the concatenated
lifecycle calls of all ticks. -/
def ActionScheduler.runTicks (active : List ActionId) (fin : ℕ → ActionId → Bool) :
    ℕ → List ActionId × List SchedEvent
  | 0 => (active, [])
  | n + 1 =>
      let prev := ActionScheduler.runTicks active fin n
      let step := ActionScheduler.run prev.1 (fin n)
      (step.1, prev.2 ++ step.2)

/-- `aliveAt fin a t` says action `a` has not reported finished on any tick before
`t`, i.e. it is still in the active set when tick `t` starts. -/
def aliveAt (fin : ℕ → ActionId → Bool) (a : ActionId) (t : ℕ) : Bool :=
  decide (∀ u < t, fin u a = false)

lemma mem_run_fst {active : List ActionId} {f : ActionId → Bool} {a : ActionId} :
    a ∈ (ActionScheduler.run active f).1 ↔ a ∈ active ∧ f a = false := by
  simp only [ActionScheduler.run, List.mem_filter, decide_eq_true_eq]
  constructor
  · rintro ⟨hmem, hnr⟩
    refine ⟨hmem, ?_⟩
    by_contra hfa
    exact hnr ⟨hmem, by simpa using hfa⟩
  · rintro ⟨hmem, hfa⟩
    exact ⟨hmem, fun hr => by simp [hfa] at hr⟩

lemma nodup_run_fst {active : List ActionId} {f : ActionId → Bool}
    (h : active.Nodup) : (ActionScheduler.run active f).1.Nodup :=
  h.filter _

lemma count_execute_runEvents (active : List ActionId) (f : ActionId → Bool)
    (a : ActionId) :
    (runEvents active f).count (SchedEvent.execute a) = active.count a := by
  induction active with
  | nil => rfl
  | cons b rest ih =>
      by_cases hfb : f b <;>
        simp [runEvents, hfb, List.count_append, List.count_cons, ih,
          SchedEvent.execute.injEq, Nat.add_comm]

lemma count_endFalse_runEvents (active : List ActionId) (f : ActionId → Bool)
    (a : ActionId) :
    (runEvents active f).count (SchedEvent.endFalse a) =
      if f a then active.count a else 0 := by
  induction active with
  | nil => simp [runEvents]
  | cons b rest ih =>
      by_cases hab : b = a
      · subst hab
        by_cases hfb : f b <;>
          simp [runEvents, hfb, List.count_append, List.count_cons, ih,
            SchedEvent.endFalse.injEq, Nat.add_comm]
      · by_cases hfb : f b <;> by_cases hfa : f a <;>
          simp [runEvents, hfb, hfa, hab, List.count_append, List.count_cons, ih,
            SchedEvent.endFalse.injEq, Nat.add_comm]

lemma mem_runTicks_fst (s : List ActionId) (fin : ℕ → ActionId → Bool)
    (a : ActionId) (n : ℕ) :
    a ∈ (ActionScheduler.runTicks s fin n).1 ↔ a ∈ s ∧ ∀ t < n, fin t a = false := by
  induction n with
  | zero => simp [ActionScheduler.runTicks]
  | succ n ih =>
      show a ∈ (ActionScheduler.run (ActionScheduler.runTicks s fin n).1 (fin n)).1 ↔ _
      rw [mem_run_fst, ih]
      rw [Nat.forall_lt_succ]
      tauto

lemma nodup_runTicks_fst (s : List ActionId) (fin : ℕ → ActionId → Bool) (n : ℕ)
    (h : s.Nodup) : (ActionScheduler.runTicks s fin n).1.Nodup := by
  induction n with
  | zero => exact h
  | succ n ih => exact nodup_run_fst ih

lemma count_runTicks_fst (s : List ActionId) (fin : ℕ → ActionId → Bool)
    (a : ActionId) (n : ℕ) (hnd : s.Nodup) (ha : a ∈ s) :
    (ActionScheduler.runTicks s fin n).1.count a =
      if aliveAt fin a n then 1 else 0 := by
  by_cases hz : aliveAt fin a n
  · rw [if_pos hz]
    refine List.count_eq_one_of_mem (nodup_runTicks_fst s fin n hnd) ?_
    rw [mem_runTicks_fst]
    exact ⟨ha, by simpa [aliveAt] using hz⟩
  · rw [if_neg hz]
    refine List.count_eq_zero_of_not_mem ?_
    rw [mem_runTicks_fst]
    rintro ⟨-, hall⟩
    exact hz (by simpa [aliveAt] using hall)

lemma count_execute_runTicks (s : List ActionId) (fin : ℕ → ActionId → Bool)
    (a : ActionId) (n : ℕ) (hnd : s.Nodup) (ha : a ∈ s) :
    (ActionScheduler.runTicks s fin n).2.count (SchedEvent.execute a) =
      ((List.range n).filter (aliveAt fin a)).length := by
  induction n with
  | zero => simp [ActionScheduler.runTicks]
  | succ n ih =>
      show ((ActionScheduler.runTicks s fin n).2 ++
          (ActionScheduler.run (ActionScheduler.runTicks s fin n).1 (fin n)).2).count
            (SchedEvent.execute a) = _
      rw [List.count_append, ih]
      show _ + (runEvents (ActionScheduler.runTicks s fin n).1 (fin n)).count
          (SchedEvent.execute a) = _
      rw [count_execute_runEvents, count_runTicks_fst s fin a n hnd ha,
        List.range_succ, List.filter_append, List.length_append,
        List.filter_singleton]
      by_cases hz : aliveAt fin a n <;> simp [hz]

lemma count_endFalse_runTicks (s : List ActionId) (fin : ℕ → ActionId → Bool)
    (a : ActionId) (n : ℕ) (hnd : s.Nodup) (ha : a ∈ s) :
    (ActionScheduler.runTicks s fin n).2.count (SchedEvent.endFalse a) =
      ((List.range n).filter (fun t => aliveAt fin a t && fin t a)).length := by
  induction n with
  | zero => simp [ActionScheduler.runTicks]
  | succ n ih =>
      show ((ActionScheduler.runTicks s fin n).2 ++
          (ActionScheduler.run (ActionScheduler.runTicks s fin n).1 (fin n)).2).count
            (SchedEvent.endFalse a) = _
      rw [List.count_append, ih]
      show _ + (runEvents (ActionScheduler.runTicks s fin n).1 (fin n)).count
          (SchedEvent.endFalse a) = _
      rw [count_endFalse_runEvents, count_runTicks_fst s fin a n hnd ha,
        List.range_succ, List.filter_append, List.length_append,
        List.filter_singleton]
      by_cases hz : aliveAt fin a n <;> by_cases hf : fin n a <;> simp [hz, hf]

lemma length_le_one_of_nodup_of_all_eq (l : List ℕ) (hnd : l.Nodup)
    (h : ∀ x ∈ l, ∀ y ∈ l, x = y) : l.length ≤ 1 := by
  cases l with
  | nil => simp
  | cons x t =>
      cases t with
      | nil => simp
      | cons y u =>
          exfalso
          have hxy : x = y := h x (by simp) y (by simp)
          rw [List.nodup_cons] at hnd
          exact hnd.1 (by simp [hxy])

lemma endFalse_filter_le_one (fin : ℕ → ActionId → Bool) (a : ActionId) (n : ℕ) :
    ((List.range n).filter (fun t => aliveAt fin a t && fin t a)).length ≤ 1 := by
  refine length_le_one_of_nodup_of_all_eq _ ((List.nodup_range n).filter _) ?_
  intro x hx y hy
  rw [List.mem_filter] at hx hy
  obtain ⟨-, hx2⟩ := hx
  obtain ⟨-, hy2⟩ := hy
  rw [Bool.and_eq_true] at hx2 hy2
  by_contra hne
  rcases Nat.lt_or_ge x y with hlt | hge
  · have := (of_decide_eq_true hy2.1) x hlt
    rw [hx2.2] at this
    simp at this
  · have hylt : y < x := lt_of_le_of_ne hge (fun hh => hne hh.symm)
    have := (of_decide_eq_true hx2.1) y hylt
    rw [hy2.2] at this
    simp at this

/-- C6: over any number of scheduler ticks, for any action `a` of the initial
active set and any `is_finished` behaviour `fin`: `a` is still active after `n`
ticks exactly when it never reported finished; `execute()` is called on `a` once
per tick for exactly the ticks on which `a` is still active at tick start — in
particular on the tick it finishes, since removals happen only after the full
pass, and on every tick forever when `fin` is always false; `end(False)` is called
on exactly the tick on which `a` first reports finished, and at most once in total,
never again after removal. -/
theorem actionScheduler_run_lifecycle (s : List ActionId) (fin : ℕ → ActionId → Bool)
    (a : ActionId) (n : ℕ) (hnd : s.Nodup) (ha : a ∈ s) :
    (a ∈ (ActionScheduler.runTicks s fin n).1 ↔ ∀ t < n, fin t a = false) ∧
    (ActionScheduler.runTicks s fin n).2.count (SchedEvent.execute a) =
      ((List.range n).filter (aliveAt fin a)).length ∧
    (ActionScheduler.runTicks s fin n).2.count (SchedEvent.endFalse a) =
      ((List.range n).filter (fun t => aliveAt fin a t && fin t a)).length ∧
    (ActionScheduler.runTicks s fin n).2.count (SchedEvent.endFalse a) ≤ 1 := by
  refine ⟨?_, count_execute_runTicks s fin a n hnd ha,
    count_endFalse_runTicks s fin a n hnd ha, ?_⟩
  · rw [mem_runTicks_fst]
    exact ⟨fun h => h.2, fun h => ⟨ha, h⟩⟩
  · rw [count_endFalse_runTicks s fin a n hnd ha]
    exact endFalse_filter_le_one fin a n

/-- A concrete `is_finished` behaviour for the C6 witness: the action reports
finished from tick 1 on. -/
def witFin : ℕ → ActionId → Bool := fun t _ => decide (1 ≤ t)

/-- Witness for C6: the lifecycle law evaluated for the single action `3` that
finishes on tick 1, over 3 ticks. -/
theorem actionScheduler_run_lifecycle_witness :
    (([3] : List ActionId).Nodup ∧ 3 ∈ ([3] : List ActionId)) ∧
    ((3 ∈ (ActionScheduler.runTicks [3] witFin 3).1 ↔ ∀ t < 3, witFin t 3 = false) ∧
      (ActionScheduler.runTicks [3] witFin 3).2.count (SchedEvent.execute 3) =
        ((List.range 3).filter (aliveAt witFin 3)).length ∧
      (ActionScheduler.runTicks [3] witFin 3).2.count (SchedEvent.endFalse 3) =
        ((List.range 3).filter (fun t => aliveAt witFin 3 t && witFin t 3)).length ∧
      (ActionScheduler.runTicks [3] witFin 3).2.count (SchedEvent.endFalse 3) ≤ 1) :=
  ⟨⟨by decide, by decide⟩,
   actionScheduler_run_lifecycle [3] witFin 3 3 (by decide) (by decide)⟩

/-- C2 counterexample: for the concrete action object `0` scheduled twice starting
from the empty scheduler — so it is already in the active set on the second call —
the active set is as if scheduled once, but the combined lifecycle trace holds two
`initialize()` calls, refuting "calls a.initialize() exactly once in total". -/
theorem actionScheduler_double_schedule_cex :
    0 ∈ (schedule_action [] 0).1 ∧
    (schedule_action (schedule_action [] 0).1 0).1 = (schedule_action [] 0).1 ∧
    ((schedule_action [] 0).2 ++ (schedule_action (schedule_action [] 0).1 0).2).count
        (SchedEvent.initCall 0) = 2 ∧
    ¬ ((schedule_action [] 0).2 ++ (schedule_action (schedule_action [] 0).1 0).2).count
        (SchedEvent.initCall 0) = 1 := by
  decide

/-- C2 amended: for every action object `a` and active set, scheduling `a` twice
leaves the active set as if scheduled once (set membership is idempotent), but
`a.initialize()` is called on every submission — twice in total — because
`schedule_action` calls it unconditionally after the set insertion. -/
theorem actionScheduler_double_schedule_initializes_twice
    (s : List ActionId) (a : ActionId) :
    (schedule_action (schedule_action s a).1 a).1 = (schedule_action s a).1 ∧
    ((schedule_action s a).2 ++ (schedule_action (schedule_action s a).1 a).2).count
        (SchedEvent.initCall a) = 2 := by
  constructor
  · have ha : a ∈ (if a ∈ s then s else s ++ [a]) := by
      split_ifs with h
      · exact h
      · simp
    simp only [schedule_action, if_pos ha]
  · simp [schedule_action, List.count_append, List.count_cons]

/-- The per-instance state set up by `ActionScheduler.__init__`
(`src/lib/actions/action_scheduler.py`, lines 12-14): `self.action = None`,
`self.scheduled_actions = set()`. -/
structure SchedulerInstance where
  action : Option ActionId
  scheduled_actions : List ActionId

/-- The process-wide state the singleton machinery lives in: the class attribute
`ActionScheduler._instance` (line 5), a heap of allocated scheduler objects
addressed by reference, the next fresh reference, and the lifecycle calls made so
far on action objects. -/
structure PyState where
  instRef : Option ℕ
  heap : ℕ → SchedulerInstance
  nextRef : ℕ
  events : List SchedEvent

/-- `ActionScheduler.__new__` (`src/lib/actions/action_scheduler.py`, lines 7-10):
allocate a fresh object into `_instance` only when `_instance` is `None`; always
return `_instance`. -/
def schedulerNew (st : PyState) : ℕ × PyState :=
  match st.instRef with
  | some r => (r, st)
  | none =>
      (st.nextRef,
       { st with instRef := some st.nextRef, nextRef := st.nextRef + 1 })

/-- `ActionScheduler.__init__` (lines 12-14) applied to the object at reference
`r`: reset both fields. It touches no action object, so no lifecycle call is
recorded. -/
def schedulerInit (r : ℕ) (st : PyState) : PyState :=
  { st with heap := fun q => if q = r then ⟨none, []⟩ else st.heap q }

/-- Evaluating the expression `ActionScheduler()`: Python runs `__new__`, and since
`__new__` returns an instance of the class, it then always runs `__init__` on the
returned object. -/
def schedulerConstruct (st : PyState) : ℕ × PyState :=
  ((schedulerNew st).1, schedulerInit (schedulerNew st).1 (schedulerNew st).2)

/-- `scheduler.schedule_action(action)` acting on the scheduler object at
reference `r` of the process state. -/
def schedulerScheduleAction (r : ℕ) (a : ActionId) (st : PyState) : PyState :=
  let inst := st.heap r
  let res := schedule_action inst.scheduled_actions a
  { st with
    heap := fun q =>
      if q = r then { inst with scheduled_actions := res.1 } else st.heap q,
    events := st.events ++ res.2 }

/-- C10: whenever the singleton already exists at reference `r` — whatever actions
the scheduler currently holds — evaluating `ActionScheduler()` again returns the
identical object `r` and leaves `_instance` pointing at it, but re-runs
`__init__`, resetting `scheduled_actions` to the empty set; no lifecycle call is
made, so the discarded active actions never receive `end()`. -/
theorem actionScheduler_construct_singleton_reset (st : PyState) (r : ℕ)
    (h : st.instRef = some r) :
    (schedulerConstruct st).1 = r ∧
    ((schedulerConstruct st).2).instRef = some r ∧
    ((schedulerConstruct st).2).heap r = ⟨none, []⟩ ∧
    ((schedulerConstruct st).2).events = st.events := by
  simp [schedulerConstruct, schedulerNew, schedulerInit, h]

/-- The process state after constructing the scheduler once from a fresh process
and scheduling action `7` on it: the singleton lives at reference 0 and holds one
active action. -/
def schedAfterFirstUse : PyState :=
  schedulerScheduleAction 0 7
    (schedulerConstruct ⟨none, fun _ => ⟨none, []⟩, 0, []⟩).2

/-- Witness for C10: re-evaluating `ActionScheduler()` on the concrete process
state that holds the active action `7` returns the same reference 0, empties the
active set, and emits no lifecycle call. -/
theorem actionScheduler_construct_singleton_reset_witness :
    schedAfterFirstUse.instRef = some 0 ∧
    ((schedulerConstruct schedAfterFirstUse).1 = 0 ∧
      ((schedulerConstruct schedAfterFirstUse).2).instRef = some 0 ∧
      ((schedulerConstruct schedAfterFirstUse).2).heap 0 = ⟨none, []⟩ ∧
      ((schedulerConstruct schedAfterFirstUse).2).events = schedAfterFirstUse.events) :=
  ⟨rfl, actionScheduler_construct_singleton_reset schedAfterFirstUse 0 rfl⟩
